import Mathlib

attribute [local semireducible] Rat.add Rat.mul Rat.inv Rat.sub

set_option maxRecDepth 60000

/-
Verification development for the Sea Treasure Hunt minigame
(React single-file component, `SeaTreasureHunt.jsx`).

The embedding below translates the game's pure logic into Lean:
numbers are exact rationals (the source uses JS doubles on small
decimal literals, which these computations track exactly on the
inputs considered), strings are `String`/`List Char`, and the React
state (`useState`/`useRef` cells) is gathered into a `Session` record
with the game loop and every event handler rendered as explicit
state-passing functions.
-/

namespace SeaTreasure

/-- JS helper `clamp` from the source: `Math.max(min, Math.min(max, v))`. -/
def clamp (v lo hi : ℚ) : ℚ := max lo (min hi v)

/-- Whitespace recognised by JS `String.prototype.trim` (restricted to the
whitespace characters that can occur in the inputs considered). -/
def isWS (c : Char) : Bool := c == ' ' || c == '\t' || c == '\n' || c == '\r'

/-- JS `String.prototype.trim` on a character list. -/
def jsTrim (l : List Char) : List Char :=
  ((l.dropWhile isWS).reverse.dropWhile isWS).reverse

/-- JS `String.prototype.split` with a single-character separator. -/
def splitOnChar (sep : Char) : List Char → List (List Char)
  | [] => [[]]
  | c :: rest =>
    let r := splitOnChar sep rest
    if c == sep then [] :: r
    else
      match r with
      | [] => [[c]]
      | h :: t => (c :: h) :: t

/-- Drop one trailing carriage return; composing this with `splitOnChar` on
a newline models the source's split on the pattern CR?-LF. -/
def dropTrailingCR (l : List Char) : List Char :=
  match l.reverse with
  | '\r' :: t => t.reverse
  | _ => l

/-- Line splitting of `parseCSVLoose`: split on LF and strip one optional CR. -/
def jsSplitLines (l : List Char) : List (List Char) :=
  (splitOnChar '\n' l).map dropTrailingCR

/-- Numeric value of a digit string. -/
def digitsVal (l : List Char) : ℕ :=
  l.foldl (fun n c => 10 * n + (c.toNat - 48)) 0

/-- Modelled from the spec: the host builtin `Number(...)` applied to an
already-trimmed string, restricted to plain decimal numerals (the only
shapes the quiz index field of the dataset takes).  The empty string maps
to `0`; a non-numeral maps to `none` (JS `NaN`). -/
def jsNumber (l : List Char) : Option ℚ :=
  if l.isEmpty then some 0
  else
    let signRest : ℚ × List Char :=
      match l with
      | '-' :: r => (-1, r)
      | '+' :: r => (1, r)
      | r => (1, r)
    let sign := signRest.1
    let rest := signRest.2
    let intPart := rest.takeWhile Char.isDigit
    let rest2 := rest.dropWhile Char.isDigit
    match rest2 with
    | [] => if intPart.isEmpty then none else some (sign * (digitsVal intPart : ℚ))
    | '.' :: frac =>
      if frac.all Char.isDigit && !(intPart.isEmpty && frac.isEmpty) then
        some (sign * ((digitsVal intPart : ℚ) + (digitsVal frac : ℚ) / (10 ^ frac.length)))
      else none
    | _ => none

/-- A quiz question as produced by the dataset loaders:
`{ question, options, answerIndex }`. -/
structure Question where
  question : String
  options : List String
  answerIndex : ℚ
  deriving Repr, DecidableEq

/-- One iteration of the row loop in `parseCSVLoose`: split the row at the
first and last comma, trim the three segments, split the middle segment on
semicolons, and drop the row if a required part is missing. -/
def parseLine (line : List Char) : Option Question :=
  match List.findIdx? (fun c => c == ',') line,
        (List.findIdx? (fun c => c == ',') line.reverse).map
          (fun i => line.length - 1 - i) with
  | some f, some lc =>
    if lc == f then none
    else
      let q := jsTrim (line.take f)
      let optionsRaw := jsTrim ((line.drop (f + 1)).take (lc - (f + 1)))
      let idxRaw := jsTrim (line.drop (lc + 1))
      let opts := ((splitOnChar ';' optionsRaw).map jsTrim).filter (fun s => !s.isEmpty)
      match jsNumber idxRaw with
      | none => none
      | some n =>
        if q.isEmpty || opts.isEmpty then none
        else some ⟨String.mk q, opts.map String.mk, n⟩
  | _, _ => none

/-- The source's `parseCSVLoose`: split the text into lines (LF or CR-LF),
trim each line, ignore blank lines, and parse each remaining row, dropping
invalid rows silently. -/
def parseCSVLoose (text : String) : List Question :=
  (((jsSplitLines text.toList).map jsTrim).filter (fun l => !l.isEmpty)).filterMap parseLine

/-- Raw JSON record as picked out by `handleJSONUpload`'s map step:
`{ question: r.question, options: r.options, answerIndex: r.answerIndex }`,
where each field may be absent (`none` models JS `undefined`, a non-string
question, a non-array options field, or a non-finite index). -/
structure RawRecord where
  question : Option String
  options : Option (List String)
  answerIndex : Option ℚ
  deriving Repr, DecidableEq

/-- The filter step of `handleJSONUpload`: keep records with a truthy
question string, an options array of at least two entries, and a finite
numeric answer index. -/
def cleanJSONRecords (rs : List RawRecord) : List Question :=
  rs.filterMap fun r =>
    match r.question, r.options, r.answerIndex with
    | some q, some os, some a =>
      if !q.isEmpty && decide (2 ≤ os.length) then some ⟨q, os, a⟩ else none
    | _, _, _ => none

/-! ## World model -/

/-- Logical viewport width `VIEW_W`. -/
def VIEW_W : ℚ := 960

/-- Logical viewport height `VIEW_H`. -/
def VIEW_H : ℚ := 600

/-- World depth `WORLD_H`. -/
def WORLD_H : ℚ := 5200

/-- Depth at which the sea begins, `WATER_SURFACE_Y`. -/
def WATER_SURFACE_Y : ℚ := 110

/-- An air pocket (checkpoint): `{ id, x, y, radius, qIndex }`.  The random
string id produced by `uid()` is modelled by a natural-number identity. -/
structure Pocket where
  id : ℕ
  x : ℚ
  y : ℚ
  radius : ℚ
  qIndex : ℕ
  deriving Repr, DecidableEq

/-- The treasure `{ x, y, w, h }`. -/
structure Treasure where
  x : ℚ
  y : ℚ
  w : ℚ
  h : ℚ
  deriving Repr, DecidableEq

/-- Static world geometry: the `pockets` and `treasure` memos, computed once
per component lifetime (`useMemo` with an empty dependency list). -/
structure World where
  pockets : List Pocket
  treasure : Treasure
  deriving Repr, DecidableEq

/-- JS `randInt(min,max) = Math.floor(random()*(max-min+1))+min`, with the
host `Math.random()` sample `r` (a value in `[0,1)`) injected. -/
def jsRandInt (r : ℚ) (lo hi : ℤ) : ℤ := ⌊r * ((hi : ℚ) - (lo : ℚ) + 1)⌋ + lo

/-- The pocket-generation loop: 8 pockets, first at depth 400, each later
depth a random 500–720 below the previous, horizontal position random
within the 120-pixel viewport margins, radius 38, quiz index the ordinal.
`rs` is the injected stream of `Math.random()` samples (the call that feeds
`uid()` is modelled away by using the ordinal as identity); `n` counts the
remaining pockets, `i` the ordinal, `y` the current depth. -/
def genPocketsAux (rs : ℕ → ℚ) : ℕ → ℕ → ℚ → List Pocket
  | 0, _, _ => []
  | n + 1, i, y =>
    { id := i, x := (jsRandInt (rs (2 * i)) 120 840 : ℚ), y := y, radius := 38, qIndex := i } ::
      genPocketsAux rs n (i + 1) (y + (jsRandInt (rs (2 * i + 1)) 500 720 : ℚ))

/-- The `pockets` memo of the component. -/
def genPockets (rs : ℕ → ℚ) : List Pocket := genPocketsAux rs 8 0 400

/-- The `treasure` memo: `{ x: randInt(160, VIEW_W-160), y: WORLD_H-140, w:120, h:80 }`. -/
def genTreasure (r : ℚ) : Treasure :=
  { x := (jsRandInt r 160 800 : ℚ), y := WORLD_H - 140, w := 120, h := 80 }

/-! ## Session model -/

/-- The seven values of the `gameState` cell. -/
inductive GState
  | menu
  | intro
  | playing
  | paused
  | question
  | gameover
  | win
  deriving Repr, DecidableEq

/-- The player ref `{ x, y, vx, vy }`. -/
structure Player where
  x : ℚ
  y : ℚ
  vx : ℚ
  vy : ℚ
  deriving Repr, DecidableEq

/-- The splash cell `{ x, y, ttl }`. -/
structure Splash where
  x : ℚ
  y : ℚ
  ttl : ℚ
  deriving Repr, DecidableEq

/-- Held movement keys (the `keys` ref). -/
structure Keys where
  left : Bool
  right : Bool
  deriving Repr, DecidableEq

/-- The sample questions compiled into the component. -/
def SAMPLE_QUESTIONS : List Question :=
  [ ⟨"What gas do humans need to breathe?", ["Oxygen", "Nitrogen", "Carbon Dioxide", "Helium"], 0⟩,
    ⟨"Which ocean is the largest?", ["Indian", "Pacific", "Atlantic", "Arctic"], 1⟩,
    ⟨"2 + 2 = ?", ["3", "4", "5", "22"], 1⟩,
    ⟨"The capital of Australia is…", ["Canberra", "Sydney", "Melbourne", "Perth"], 0⟩ ]

/-- The mutable per-session state of the component: every `useState` cell
plus the player ref.  The answered-pocket `Set` is modelled as a list read
through membership. -/
structure Session where
  gameState : GState
  oxygen : ℚ
  score : ℤ
  splash : Option Splash
  player : Player
  questions : List Question
  activePocketId : Option ℕ
  answeredPocketIds : List ℕ
  currentQ : Option Question
  selectedOption : Option ℕ
  deriving Repr, DecidableEq

/-- The initial state of every cell at mount. -/
def initSession : Session :=
  { gameState := .menu
    oxygen := 100
    score := 0
    splash := none
    player := { x := VIEW_W / 2, y := 20, vx := 0, vy := 0 }
    questions := SAMPLE_QUESTIONS
    activePocketId := none
    answeredPocketIds := []
    currentQ := none
    selectedOption := none }

/-! ## The game loop (one tick) -/

/-- The treasure bounding-box predicate of the win-condition effect, with
its fixed 40/10-pixel margins. -/
def insideTreasure (t : Treasure) (x y : ℚ) : Bool :=
  decide (t.x - 40 < x) && decide (x < t.x + t.w + 40) &&
    decide (t.y - 10 < y) && decide (y < t.y + t.h + 10)

/-- The `intro` branch of the game loop: aerial free-fall under gravity,
bounded horizontal control, and the one-shot surface crossing that zeroes
vertical velocity, emits the splash event and enters `playing`. -/
def tickIntro (k : Keys) (s : Session) : Session :=
  let p := s.player
  let vy := p.vy + 36 / 100
  let y := p.y + vy
  let vx :=
    if k.left then clamp (p.vx - 2 / 5) (-3) 3
    else if k.right then clamp (p.vx + 2 / 5) (-3) 3
    else p.vx * (9 / 10)
  let x := clamp (p.x + vx) 30 (VIEW_W - 30)
  if WATER_SURFACE_Y ≤ y then
    { s with
        player := { x := x, y := y, vx := vx, vy := 0 }
        splash := some { x := x, y := WATER_SURFACE_Y, ttl := 900 }
        gameState := .playing }
  else
    { s with player := { x := x, y := y, vx := vx, vy := vy } }

/-- The `playing` branch of the game loop: bounded horizontal control with
multiplicative decay, constant slow descent clamped to world bounds, the
oxygen drain clamped at 0 with its terminal check, the running-maximum
score update, and the treasure check of the win-condition effect evaluated
against the freshly integrated position when the session is still playing
(the oxygen-exhaustion check precedes it, so it takes priority). -/
def tickPlaying (w : World) (k : Keys) (dt : ℚ) (s : Session) : Session :=
  let p := s.player
  let vx :=
    if k.left then clamp (p.vx - 3 / 5) (-(33 / 10)) (33 / 10)
    else if k.right then clamp (p.vx + 3 / 5) (-(33 / 10)) (33 / 10)
    else p.vx * (9 / 10)
  let x := clamp (p.x + vx) 30 (VIEW_W - 30)
  let y := clamp (p.y + 9 / 10) 20 (WORLD_H - 40)
  let ox := clamp (s.oxygen - (18 / 1000) * (dt / (1667 / 100))) 0 100
  let st :=
    if ox ≤ 0 then GState.gameover
    else if insideTreasure w.treasure x y then GState.win
    else GState.playing
  { s with
      player := { x := x, y := y, vx := vx, vy := p.vy }
      oxygen := ox
      score := max s.score ⌊y⌋
      gameState := st }

/-- The splash time-to-live decrement at the end of the loop body: it fires
only when a splash was present at the start of the tick. -/
def decaySplash (dt : ℚ) (old : Option Splash) (s : Session) : Session :=
  match old, s.splash with
  | some _, some sp => { s with splash := some { sp with ttl := sp.ttl - dt } }
  | some _, none => { s with splash := none }
  | none, _ => s

/-- One full tick of the game loop: clamp the raw frame delta at 33 ms,
run the branch selected by the current state (all states other than
`intro` and `playing` freeze physics, oxygen and score), then decay the
splash. -/
def tick (w : World) (k : Keys) (dtRaw : ℚ) (s : Session) : Session :=
  let dt := min 33 dtRaw
  let s1 :=
    match s.gameState with
    | .intro => tickIntro k s
    | .playing => tickPlaying w k dt s
    | _ => s
  decaySplash dt s.splash s1

/-! ## Proximity detection -/

/-- Squared straight-line distance from the player to a pocket.  The source
compares `Math.hypot` distances; all its comparisons (`dist < bestDist`,
`dist <= threshold` with the threshold checked nonnegative) are equivalent
to the corresponding comparisons of squares, which keeps the model exact
over the rationals. -/
def distSq (pl : Player) (p : Pocket) : ℚ :=
  (pl.x - p.x) ^ 2 + (pl.y - p.y) ^ 2

/-- The scanning loop of `nearestEnterablePocketId`: walk the pocket list,
skip cleared pockets, and keep the first pocket of strictly minimal
distance together with its squared distance (`none` models the initial
`best = null / bestDist = Infinity`). -/
def nearestScan (a : List ℕ) (pl : Player) :
    List Pocket → Option (Pocket × ℚ) → Option (Pocket × ℚ)
  | [], acc => acc
  | p :: rest, acc =>
    if a.contains p.id then nearestScan a pl rest acc
    else
      let d := distSq pl p
      match acc with
      | none => nearestScan a pl rest (some (p, d))
      | some (_, dbest) =>
        if d < dbest then nearestScan a pl rest (some (p, d))
        else nearestScan a pl rest acc

/-- The source's `nearestEnterablePocketId`: the nearest uncleared pocket is
the sole candidate; it is enterable when its distance is at most
`radius + 18 + 8` (player radius plus slack).  A nonnegative real distance
is at most the threshold exactly when the threshold is nonnegative and the
squares compare, which is how the comparison is phrased here. -/
def nearestEnterablePocketId (a : List ℕ) (pl : Player) (ps : List Pocket) : Option ℕ :=
  match nearestScan a pl ps none with
  | none => none
  | some (p, d) =>
    let thr := p.radius + 18 + 8
    if 0 ≤ thr ∧ d ≤ thr ^ 2 then some p.id else none

/-! ## Input actions -/

/-- The discrete input actions the host can deliver: the menu Start button,
the P key / pause buttons, the R key / restart buttons, the E key, the
question-modal option buttons, Submit and Cancel, the main-menu buttons of
the terminal screens, and the two dataset loaders. -/
inductive Action
  | start
  | togglePause
  | restart
  | enterPocket
  | select (i : ℕ)
  | submit
  | cancel
  | mainMenu
  | loadCSV (text : String)
  | loadJSON (rs : List RawRecord)
  deriving DecidableEq

/-- The common body of `start()` and `restart()`: reset every session cell
together and enter `intro`; only the player reset value differs between
the two. -/
def resetWith (p : Player) (s : Session) : Session :=
  { s with
      player := p
      oxygen := 100
      score := 0
      answeredPocketIds := []
      activePocketId := none
      currentQ := none
      selectedOption := none
      splash := none
      gameState := .intro }

/-- Player reset of `start()`: centred above the surface with the small
upward arc `vx = 0.6, vy = -1.2`. -/
def startPlayer : Player := { x := VIEW_W / 2, y := 20, vx := 3 / 5, vy := -(6 / 5) }

/-- Player reset of `restart()`: centred above the surface at rest. -/
def restartPlayer : Player := { x := VIEW_W / 2, y := 20, vx := 0, vy := 0 }

/-- The `attemptEnterPocket` handler: a no-op outside `playing`/`intro` or
when no pocket is enterable; otherwise record the active pocket, load its
question by quiz index modulo the question-list length, clear the
selection and open the question modal. -/
def attemptEnterPocket (w : World) (s : Session) : Session :=
  if s.gameState = .playing ∨ s.gameState = .intro then
    match nearestEnterablePocketId s.answeredPocketIds s.player w.pockets with
    | none => s
    | some pid =>
      match w.pockets.find? (fun p => p.id == pid) with
      | none => s
      | some p =>
        { s with
            activePocketId := some pid
            currentQ := s.questions.get? (p.qIndex % s.questions.length)
            selectedOption := none
            gameState := .question }
  else s

/-- The `submitAnswer` handler: a no-op without a question or a selection;
a correct selection marks the active pocket cleared, grants the oxygen
bonus clamped at 100, clears the modal state and resumes `playing`; an
incorrect selection goes straight to `gameover`. -/
def submitAnswer (s : Session) : Session :=
  match s.currentQ with
  | none => s
  | some q =>
    match s.selectedOption with
    | none => s
    | some i =>
      if (i : ℚ) = q.answerIndex then
        { s with
            answeredPocketIds :=
              match s.activePocketId with
              | some pid => pid :: s.answeredPocketIds
              | none => s.answeredPocketIds
            oxygen := clamp (s.oxygen + 40) 0 100
            activePocketId := none
            currentQ := none
            selectedOption := none
            gameState := .playing }
      else { s with gameState := .gameover }

/-- Apply one input action.  Guards reflect where each handler is reachable
in the component: Start exists only on the menu screen, the modal buttons
only while the question modal is shown, the main-menu buttons only on the
terminal screens; `togglePause` and the R key are bound globally and carry
their own internal guards. -/
def applyAction (w : World) (a : Action) (s : Session) : Session :=
  match a with
  | .start => if s.gameState = .menu then resetWith startPlayer s else s
  | .togglePause =>
    { s with
        gameState :=
          if s.gameState = .playing then .paused
          else if s.gameState = .paused then .playing
          else s.gameState }
  | .restart => resetWith restartPlayer s
  | .enterPocket => attemptEnterPocket w s
  | .select i => if s.gameState = .question then { s with selectedOption := some i } else s
  | .submit => if s.gameState = .question then submitAnswer s else s
  | .cancel => if s.gameState = .question then { s with gameState := .playing } else s
  | .mainMenu =>
    if s.gameState = .gameover ∨ s.gameState = .win then { s with gameState := .menu } else s
  | .loadCSV t =>
    let rows := parseCSVLoose t
    if rows.isEmpty then s else { s with questions := rows }
  | .loadJSON rs =>
    let rows := cleanJSONRecords rs
    if rows.isEmpty then s else { s with questions := rows }

/-! ## Reachability -/

/-- The session states reachable from mount by any interleaving of ticks
(with any key state and any raw frame delta) and input actions, for a
fixed world `w`. -/
inductive Reachable (w : World) : Session → Prop
  | init : Reachable w initSession
  | tickStep (k : Keys) (dt : ℚ) (s : Session) :
      Reachable w s → Reachable w (tick w k dt s)
  | actStep (a : Action) (s : Session) :
      Reachable w s → Reachable w (applyAction w a s)

/-- The whole component state: the once-per-lifetime world memos plus the
mutable session. -/
structure Game where
  world : World
  session : Session
  deriving Repr, DecidableEq

/-- One event at component level: a frame of the game loop or one input
action. -/
inductive GEvent
  | frame (k : Keys) (dt : ℚ)
  | input (a : Action)

/-- Component-level step: the world memos have an empty dependency list, so
every event leaves them as computed at mount and only the session evolves. -/
def gameStep (e : GEvent) (g : Game) : Game :=
  match e with
  | .frame k dt => { g with session := tick g.world k dt g.session }
  | .input a => { g with session := applyAction g.world a g.session }

/-- Run a list of component-level events in order. -/
def gameRun (evs : List GEvent) (g : Game) : Game := evs.foldl (fun g e => gameStep e g) g

/-! ## A concrete generated world and a concrete play trace

These are used to exhibit behaviours on explicit inputs: a world produced
by the generator from a fixed randomness stream, and the session reached
by restarting, free-falling to the surface, sinking down to the first air
pocket, entering it and cancelling the question. -/

/-- A fixed randomness stream: horizontal draws pick the viewport centre
(`⌊(360/721)·721⌋ + 120 = 480`), vertical-step draws pick the minimum step. -/
def rsC : ℕ → ℚ := fun n => if n % 2 = 0 then 360 / 721 else 0

/-- The world generated from `rsC`: pockets at x = 480 and depths
400, 900, …, 3900, treasure at (160, 5060). -/
def wC : World := ⟨genPockets rsC, genTreasure 0⟩

/-- One tick with no keys held and a zero frame delta. -/
def tick0 (w : World) (s : Session) : Session := tick w ⟨false, false⟩ 0 s

/-- Iterated no-input ticks. -/
def iterTick (w : World) (n : ℕ) (s : Session) : Session := (tick0 w)^[n] s

/-- The session after `restart` from the initial state. -/
def sA : Session := applyAction wC .restart initSession

/-- Closed form of the underwater descent in `wC` after the surface
crossing of the restart trace: `m` no-input playing ticks past the
crossing leave the player at depth `2777/25 + 0.9·m` with the score
tracking the floored depth. -/
def descState (m : ℕ) : Session :=
  { gameState := .playing
    oxygen := 100
    score := if m = 0 then 0 else ⌊(2777 : ℚ) / 25 + 9 * m / 10⌋
    splash := some { x := 480, y := 110, ttl := 900 }
    player := { x := 480, y := 2777 / 25 + 9 * m / 10, vx := 0, vy := 0 }
    questions := SAMPLE_QUESTIONS
    activePocketId := none
    answeredPocketIds := []
    currentQ := none
    selectedOption := none }

/-- The session after pressing E next to the first pocket of `wC` (player
at depth 336.08, within the 64-pixel enter threshold of the pocket at
depth 400): the question modal opens. -/
def sQ : Session := applyAction wC .enterPocket (descState 250)

/-- The session after cancelling that question modal. -/
def sE : Session := applyAction wC .cancel sQ

/-- A playing session with almost no oxygen whose player hovers inside the
treasure box of `wC`: one nominal 16.67 ms tick drains the oxygen to 0. -/
def sHit : Session :=
  { gameState := .playing
    oxygen := 1 / 100
    score := 0
    splash := none
    player := { x := 200, y := 5100, vx := 0, vy := 0 }
    questions := SAMPLE_QUESTIONS
    activePocketId := none
    answeredPocketIds := []
    currentQ := none
    selectedOption := none }

/-! ## Basic lemmas -/

/-- A clamp between attainable bounds is the identity on values in range. -/
theorem clamp_eq_self {v lo hi : ℚ} (h1 : lo ≤ v) (h2 : v ≤ hi) : clamp v lo hi = v := by
  unfold clamp
  rw [min_eq_right h2, max_eq_right h1]

/-- A clamp never goes below its lower bound. -/
theorem clamp_lower (v lo hi : ℚ) : lo ≤ clamp v lo hi := le_max_left lo (min hi v)

/-- A clamp never exceeds its upper bound when the bounds are ordered. -/
theorem clamp_upper {lo hi : ℚ} (v : ℚ) (h : lo ≤ hi) : clamp v lo hi ≤ hi :=
  max_le h (min_le_left hi v)

/-- The splash decay never touches the oxygen cell. -/
@[simp] theorem decaySplash_oxygen (dt : ℚ) (o : Option Splash) (s : Session) :
    (decaySplash dt o s).oxygen = s.oxygen := by
  unfold decaySplash
  split <;> rfl

/-- The splash decay never touches the state cell. -/
@[simp] theorem decaySplash_gameState (dt : ℚ) (o : Option Splash) (s : Session) :
    (decaySplash dt o s).gameState = s.gameState := by
  unfold decaySplash
  split <;> rfl

/-- The splash decay never touches the score cell. -/
@[simp] theorem decaySplash_score (dt : ℚ) (o : Option Splash) (s : Session) :
    (decaySplash dt o s).score = s.score := by
  unfold decaySplash
  split <;> rfl

/-- The splash decay never touches the player ref. -/
@[simp] theorem decaySplash_player (dt : ℚ) (o : Option Splash) (s : Session) :
    (decaySplash dt o s).player = s.player := by
  unfold decaySplash
  split <;> rfl

/-- The splash decay never touches the question list. -/
@[simp] theorem decaySplash_questions (dt : ℚ) (o : Option Splash) (s : Session) :
    (decaySplash dt o s).questions = s.questions := by
  unfold decaySplash
  split <;> rfl

/-- The splash decay never touches the displayed question. -/
@[simp] theorem decaySplash_currentQ (dt : ℚ) (o : Option Splash) (s : Session) :
    (decaySplash dt o s).currentQ = s.currentQ := by
  unfold decaySplash
  split <;> rfl

/-- The splash decay never touches the active pocket. -/
@[simp] theorem decaySplash_activePocketId (dt : ℚ) (o : Option Splash) (s : Session) :
    (decaySplash dt o s).activePocketId = s.activePocketId := by
  unfold decaySplash
  split <;> rfl

/-- The intro branch never touches the oxygen cell. -/
@[simp] theorem tickIntro_oxygen (k : Keys) (s : Session) :
    (tickIntro k s).oxygen = s.oxygen := by
  unfold tickIntro
  dsimp only
  repeat' split
  all_goals rfl

/-- The intro branch never touches the score cell. -/
@[simp] theorem tickIntro_score (k : Keys) (s : Session) :
    (tickIntro k s).score = s.score := by
  unfold tickIntro
  dsimp only
  repeat' split
  all_goals rfl

/-- The intro branch never touches the question list. -/
@[simp] theorem tickIntro_questions (k : Keys) (s : Session) :
    (tickIntro k s).questions = s.questions := by
  unfold tickIntro
  dsimp only
  repeat' split
  all_goals rfl

/-- The intro branch never touches the displayed question. -/
@[simp] theorem tickIntro_currentQ (k : Keys) (s : Session) :
    (tickIntro k s).currentQ = s.currentQ := by
  unfold tickIntro
  dsimp only
  repeat' split
  all_goals rfl

/-- The intro branch never touches the active pocket. -/
@[simp] theorem tickIntro_activePocketId (k : Keys) (s : Session) :
    (tickIntro k s).activePocketId = s.activePocketId := by
  unfold tickIntro
  dsimp only
  repeat' split
  all_goals rfl

/-- The intro branch can only leave the state in `intro` or hand over to
`playing` at the surface crossing. -/
theorem tickIntro_gameState (k : Keys) (s : Session) :
    (tickIntro k s).gameState = .playing ∨ (tickIntro k s).gameState = s.gameState := by
  unfold tickIntro
  dsimp only
  repeat' split
  all_goals first | exact Or.inl rfl | exact Or.inr rfl

/-- The playing branch never touches the question list. -/
@[simp] theorem tickPlaying_questions (w : World) (k : Keys) (dt : ℚ) (s : Session) :
    (tickPlaying w k dt s).questions = s.questions := rfl

/-- The playing branch never touches the displayed question. -/
@[simp] theorem tickPlaying_currentQ (w : World) (k : Keys) (dt : ℚ) (s : Session) :
    (tickPlaying w k dt s).currentQ = s.currentQ := rfl

/-- The playing branch never touches the active pocket. -/
@[simp] theorem tickPlaying_activePocketId (w : World) (k : Keys) (dt : ℚ) (s : Session) :
    (tickPlaying w k dt s).activePocketId = s.activePocketId := rfl

/-- Oxygen after the playing branch is the clamped drained value. -/
theorem tickPlaying_oxygen (w : World) (k : Keys) (dt : ℚ) (s : Session) :
    (tickPlaying w k dt s).oxygen =
      clamp (s.oxygen - 18 / 1000 * (dt / (1667 / 100))) 0 100 := rfl

/-- Score after the playing branch is the running maximum against the
floored fresh depth. -/
theorem tickPlaying_score (w : World) (k : Keys) (dt : ℚ) (s : Session) :
    (tickPlaying w k dt s).score = max s.score ⌊(tickPlaying w k dt s).player.y⌋ := rfl

/-- The playing branch only ends in `gameover`, `win` or `playing`. -/
theorem tickPlaying_gameState (w : World) (k : Keys) (dt : ℚ) (s : Session) :
    (tickPlaying w k dt s).gameState = .gameover ∨
      (tickPlaying w k dt s).gameState = .win ∨
      (tickPlaying w k dt s).gameState = .playing := by
  unfold tickPlaying
  dsimp only
  repeat' split
  all_goals first
    | exact Or.inl rfl
    | exact Or.inr (Or.inl rfl)
    | exact Or.inr (Or.inr rfl)

/-- A tick never changes the loaded question list. -/
@[simp] theorem tick_questions (w : World) (k : Keys) (dt : ℚ) (s : Session) :
    (tick w k dt s).questions = s.questions := by
  unfold tick
  dsimp only
  cases s.gameState <;> simp

/-- A tick never changes the displayed question. -/
@[simp] theorem tick_currentQ (w : World) (k : Keys) (dt : ℚ) (s : Session) :
    (tick w k dt s).currentQ = s.currentQ := by
  unfold tick
  dsimp only
  cases s.gameState <;> simp

/-- A tick never changes the active pocket. -/
@[simp] theorem tick_activePocketId (w : World) (k : Keys) (dt : ℚ) (s : Session) :
    (tick w k dt s).activePocketId = s.activePocketId := by
  unfold tick
  dsimp only
  cases s.gameState <;> simp

/-- A tick never moves the session into the `question` state: the modal
only opens through the enter-pocket action. -/
theorem tick_state_question {w : World} {k : Keys} {dt : ℚ} {s : Session}
    (h : (tick w k dt s).gameState = .question) : s.gameState = .question := by
  unfold tick at h
  dsimp only at h
  revert h
  cases hgs : s.gameState <;> simp only [decaySplash_gameState] <;> intro h
  case intro =>
    rcases tickIntro_gameState k s with h2 | h2 <;> rw [h2] at h
    · exact absurd h (by simp)
    · rw [hgs] at h
      exact absurd h (by simp)
  case playing =>
    rcases tickPlaying_gameState w k (min 33 dt) s with h2 | h2 | h2 <;> rw [h2] at h <;>
      exact absurd h (by simp)
  all_goals simp_all

/-- Iterated no-input ticks stay within the reachable set. -/
theorem reachable_iterTick {w : World} {s : Session} (h : Reachable w s) (n : ℕ) :
    Reachable w (iterTick w n s) := by
  induction n with
  | zero => exact h
  | succ k ih =>
    show Reachable w ((tick0 w)^[k + 1] s)
    rw [Function.iterate_succ_apply']
    exact Reachable.tickStep ⟨false, false⟩ 0 _ ih

/-! ## The restart trace in the concrete world -/

/-- The treasure generated in `wC`. -/
theorem wC_treasure : wC.treasure = ⟨160, 5060, 120, 80⟩ := by
  simp [wC, genTreasure, jsRandInt, WORLD_H]
  norm_num

/-- One no-input zero-delta playing tick advances the closed-form descent
state by one step: the player sinks 0.9 deeper, the score tracks the new
floored depth, and nothing else moves. -/
theorem descStep (m : ℕ) (hm : m ≤ 299) : tick0 wC (descState m) = descState (m + 1) := by
  have h0 : (0:ℚ) ≤ (m:ℚ) := Nat.cast_nonneg m
  have hmq : (m:ℚ) ≤ 299 := by exact_mod_cast hm
  have hmin : (33:ℚ) ⊓ 0 = 0 := min_eq_right (by norm_num)
  have hx : clamp (480:ℚ) 30 (VIEW_W - 30) = 480 :=
    clamp_eq_self (by norm_num) (by unfold VIEW_W; norm_num)
  have hy : clamp ((2777:ℚ)/25 + 9*m/10 + 9/10) 20 (WORLD_H - 40) = 2777/25 + 9*m/10 + 9/10 :=
    clamp_eq_self (by linarith) (by unfold WORLD_H; linarith)
  have hox : clamp ((100:ℚ) - 18/1000 * (0 / (1667/100))) 0 100 = 100 := by
    rw [show (100:ℚ) - 18/1000 * (0 / (1667/100)) = 100 by ring]
    exact clamp_eq_self (by norm_num) (by norm_num)
  have htr : insideTreasure ⟨160, 5060, 120, 80⟩ 480 ((2777:ℚ)/25 + 9*m/10 + 9/10) = false := by
    simp only [insideTreasure, Bool.and_eq_false_iff]
    left; left; right
    simp only [decide_eq_false_iff_not, not_lt]
    norm_num
  have hsc : ((if m = 0 then (0:ℤ) else ⌊(2777:ℚ)/25 + 9*m/10⌋) ⊔
      ⌊(2777:ℚ)/25 + 9*m/10 + 9/10⌋) = ⌊(2777:ℚ)/25 + 9*m/10 + 9/10⌋ := by
    rcases eq_or_ne m 0 with h | h
    · subst h
      rw [if_pos rfl, sup_eq_right]
      exact Int.floor_nonneg.mpr (by norm_num)
    · rw [if_neg h, sup_eq_right]
      exact Int.floor_le_floor (by linarith)
  unfold tick0 tick descState tickPlaying decaySplash
  simp only [Bool.false_eq_true, if_false, zero_mul, add_zero, sub_zero, hmin]
  rw [hx, hy, hox, wC_treasure, htr]
  simp only [Bool.false_eq_true, if_false, Nat.cast_add, Nat.cast_one]
  rw [if_neg (by norm_num : ¬((100:ℚ) ≤ 0)), if_neg (Nat.succ_ne_zero m)]
  rw [show (2777:ℚ)/25 + 9*((m:ℚ)+1)/10 = 2777/25 + 9*↑m/10 + 9/10 from by ring]
  rw [hsc]

/-- After the 22 free-fall ticks of the restart trace the player has just
crossed the surface: the session is the base of the closed-form descent. -/
theorem iter22 : iterTick wC 22 sA = descState 0 := by decide

/-- The closed form holds along the whole descent. -/
theorem descIter (m : ℕ) (hm : m ≤ 300) : iterTick wC m (descState 0) = descState m := by
  induction m with
  | zero => rfl
  | succ n ih =>
    have hn : iterTick wC n (descState 0) = descState n := ih (by omega)
    show (tick0 wC)^[n + 1] (descState 0) = _
    rw [Function.iterate_succ_apply']
    show tick0 wC (iterTick wC n (descState 0)) = _
    rw [hn]
    exact descStep n (by omega)

/-- 272 no-input ticks after the restart leave the player hovering at the
first pocket, 63.92 pixels from its centre. -/
theorem iter272 : iterTick wC 272 sA = descState 250 := by
  have h : iterTick wC 272 sA = iterTick wC 250 (iterTick wC 22 sA) := by
    show (tick0 wC)^[272] sA = (tick0 wC)^[250] ((tick0 wC)^[22] sA)
    rw [← Function.iterate_add_apply]
  rw [h, iter22, descIter 250 (by omega)]

/-- The open question modal of the trace is reachable. -/
theorem reach_sQ : Reachable wC sQ := by
  have h1 : Reachable wC sA := Reachable.actStep .restart _ Reachable.init
  have h2 : Reachable wC (iterTick wC 272 sA) := reachable_iterTick h1 272
  rw [iter272] at h2
  exact Reachable.actStep .enterPocket _ h2

/-- The state just after cancelling that modal is reachable. -/
theorem reach_sE : Reachable wC sE := Reachable.actStep .cancel _ reach_sQ

/-- The enter-pocket handler never touches the oxygen cell. -/
@[simp] theorem attemptEnterPocket_oxygen (w : World) (s : Session) :
    (attemptEnterPocket w s).oxygen = s.oxygen := by
  unfold attemptEnterPocket
  repeat' split
  all_goals rfl

/-- The enter-pocket handler never touches the score cell. -/
@[simp] theorem attemptEnterPocket_score (w : World) (s : Session) :
    (attemptEnterPocket w s).score = s.score := by
  unfold attemptEnterPocket
  repeat' split
  all_goals rfl

/-- The enter-pocket handler never touches the question list. -/
@[simp] theorem attemptEnterPocket_questions (w : World) (s : Session) :
    (attemptEnterPocket w s).questions = s.questions := by
  unfold attemptEnterPocket
  repeat' split
  all_goals rfl

/-- The submit handler never touches the question list. -/
@[simp] theorem submitAnswer_questions (s : Session) :
    (submitAnswer s).questions = s.questions := by
  unfold submitAnswer
  repeat' split
  all_goals rfl

/-- The submit handler never touches the score cell. -/
@[simp] theorem submitAnswer_score (s : Session) :
    (submitAnswer s).score = s.score := by
  unfold submitAnswer
  repeat' split
  all_goals rfl

/-- Any action leaves the question list either unchanged or replaced by a
nonempty parse result, so a nonempty list stays nonempty. -/
theorem applyAction_questions_ne_nil {w : World} {a : Action} {s : Session}
    (h : s.questions ≠ []) : (applyAction w a s).questions ≠ [] := by
  cases a with
  | start =>
    unfold applyAction
    dsimp only
    split
    · simpa [resetWith] using h
    · exact h
  | togglePause => exact h
  | restart => simpa [applyAction, resetWith] using h
  | enterPocket => simpa [applyAction] using h
  | select i =>
    unfold applyAction
    dsimp only
    split
    · exact h
    · exact h
  | submit =>
    unfold applyAction
    dsimp only
    split
    · simpa using h
    · exact h
  | cancel =>
    unfold applyAction
    dsimp only
    split
    · exact h
    · exact h
  | mainMenu =>
    unfold applyAction
    dsimp only
    split
    · exact h
    · exact h
  | loadCSV t =>
    unfold applyAction
    dsimp only
    split
    · exact h
    · next hne => simpa [List.isEmpty_iff] using hne
  | loadJSON rs =>
    unfold applyAction
    dsimp only
    split
    · exact h
    · next hne => simpa [List.isEmpty_iff] using hne

/-! ## Claims -/

/-- C1 (code bug): `parseCSVLoose` splits a row at the FIRST and last
comma, with the question taken from before the first comma, so the input
`"What, if any, is X?,Opt1;Opt2,1"` yields the truncated question `"What"`
with the rest of the intended question text folded into the first option —
not the question `"What, if any, is X?"` that the source's comment and its
own dev test (test 2 of `runDevTests`) require. -/
theorem c1_csv_embedded_commas :
    parseCSVLoose "What, if any, is X?,Opt1;Opt2,1" =
      [{ question := "What", options := ["if any, is X?,Opt1", "Opt2"], answerIndex := 1 }] ∧
    ∀ q ∈ parseCSVLoose "What, if any, is X?,Opt1;Opt2,1",
      q.question ≠ "What, if any, is X?" := by
  constructor
  · decide
  · decide

/-- C2 (counterexample): after restarting, free-falling into the water,
sinking to the first air pocket of the generated world `wC`, entering it
and pressing Cancel, the session is reachable, is in state `playing`, and
still holds a non-null displayed question and active pocket — refuting the
claimed "non-null iff state = question" invariant on the cancel
transition. -/
theorem c2_counterexample :
    Reachable wC sE ∧
    sE.gameState = GState.playing ∧
    sE.currentQ ≠ none ∧
    sE.activePocketId ≠ none :=
  ⟨reach_sE, by decide, by decide, by decide⟩

/-- Reachability invariant behind the amended C2: the question list is
never empty, and a session in state `question` always displays a question
and records an active pocket. -/
theorem reachable_modal_inv {w : World} {s : Session} (h : Reachable w s) :
    s.questions ≠ [] ∧
      (s.gameState = .question → s.currentQ ≠ none ∧ s.activePocketId ≠ none) := by
  induction h with
  | init =>
    refine ⟨by simp [initSession, SAMPLE_QUESTIONS], ?_⟩
    intro hq
    exact absurd hq (by simp [initSession])
  | tickStep k dt s h ih =>
    obtain ⟨hq, himp⟩ := ih
    refine ⟨by simpa using hq, ?_⟩
    intro hgs
    obtain ⟨h1, h2⟩ := himp (tick_state_question hgs)
    simpa using ⟨h1, h2⟩
  | actStep a s h ih =>
    obtain ⟨hq, himp⟩ := ih
    refine ⟨applyAction_questions_ne_nil hq, ?_⟩
    cases a with
    | start =>
      unfold applyAction
      dsimp only
      split
      · intro hgs
        exact absurd hgs (by simp [resetWith])
      · exact himp
    | togglePause =>
      unfold applyAction
      intro hgs
      dsimp only at hgs
      have hg : s.gameState = .question := by
        revert hgs
        split
        · intro hgs
          exact absurd hgs (by simp)
        · split
          · intro hgs
            exact absurd hgs (by simp)
          · exact fun hgs => hgs
      simpa using himp hg
    | restart =>
      intro hgs
      exact absurd hgs (by simp [applyAction, resetWith])
    | enterPocket =>
      unfold applyAction attemptEnterPocket
      dsimp only
      split
      · cases hnear : nearestEnterablePocketId s.answeredPocketIds s.player w.pockets with
        | none => exact himp
        | some pid =>
          dsimp only
          cases hfind : w.pockets.find? (fun p => p.id == pid) with
          | none => exact himp
          | some p =>
            dsimp only
            intro _
            have hlen : 0 < s.questions.length := List.length_pos.mpr hq
            have hlt : p.qIndex % s.questions.length < s.questions.length :=
              Nat.mod_lt _ hlen
            refine ⟨?_, by simp⟩
            simp only [ne_eq, List.get?_eq_none]
            omega
      · exact himp
    | select i =>
      unfold applyAction
      dsimp only
      split
      · next hg =>
        intro _
        exact himp hg
      · exact himp
    | submit =>
      unfold applyAction submitAnswer
      dsimp only
      split
      · next hg =>
        cases hcq : s.currentQ with
        | none =>
          dsimp only
          exact fun _ => himp hg
        | some q =>
          dsimp only
          cases hsel : s.selectedOption with
          | none =>
            dsimp only
            exact fun _ => himp hg
          | some i =>
            dsimp only
            split
            · intro hgs
              exact absurd hgs (by simp)
            · intro hgs
              exact absurd hgs (by simp)
      · exact himp
    | cancel =>
      unfold applyAction
      dsimp only
      split
      · intro hgs
        exact absurd hgs (by simp)
      · exact himp
    | mainMenu =>
      unfold applyAction
      dsimp only
      split
      · intro hgs
        exact absurd hgs (by simp)
      · exact himp
    | loadCSV t =>
      unfold applyAction
      dsimp only
      split
      · exact himp
      · intro hgs
        simpa using himp hgs
    | loadJSON rs =>
      unfold applyAction
      dsimp only
      split
      · exact himp
      · intro hgs
        simpa using himp hgs

/-- C2 (amended): in every reachable session state, if the state is
`question` then the displayed question and the active-pocket identity are
both non-null.  The converse direction of the original claim fails: the
cancel and incorrect-submit transitions change the state without clearing
the question or active pocket (see the counterexample). -/
theorem c2_amended_modal_nonnull (w : World) (s : Session) (h : Reachable w s)
    (hq : s.gameState = .question) :
    s.currentQ ≠ none ∧ s.activePocketId ≠ none :=
  (reachable_modal_inv h).2 hq

/-- C2 amended witness: the open modal state of the concrete trace. -/
theorem c2_amended_witness : sQ.currentQ ≠ none ∧ sQ.activePocketId ≠ none :=
  c2_amended_modal_nonnull wC sQ reach_sQ (by decide)

/-- C3 (counterexample): restarting out of the freshly started session does
not reproduce the started session — `start()` gives the player the upward
arc `vx = 0.6, vy = -1.2` while `restart()` zeroes the velocity. -/
theorem c3_counterexample :
    applyAction wC .restart (applyAction wC .start initSession) ≠
      applyAction wC .start initSession := by decide

/-- C3 (amended): the restart action, from any state, transitions to
`intro` and performs the same full session reset as the start action
except for the player's velocity: restart zeroes it where start applies
the small arc `(0.6, -1.2)`; the reset player positions agree. -/
theorem c3_amended_restart_reset (w : World) (s : Session) :
    applyAction w .restart s = { resetWith startPlayer s with player := restartPlayer } ∧
    applyAction w .start { s with gameState := .menu } = resetWith startPlayer s ∧
    restartPlayer = { startPlayer with vx := 0, vy := 0 } ∧
    restartPlayer.x = startPlayer.x ∧ restartPlayer.y = startPlayer.y ∧
    startPlayer.vx = 3 / 5 ∧ startPlayer.vy = -(6 / 5) := by
  refine ⟨rfl, ?_, by simp [restartPlayer, startPlayer], rfl, rfl, rfl, rfl⟩
  unfold applyAction
  rw [if_pos rfl]
  rfl

/-- C4: on any `playing` tick whose oxygen update reaches exactly 0, the
session ends in `gameover` on that same tick and never in `win` — the
oxygen-exhaustion check guards the treasure check, so even a position
inside the treasure bounding box cannot fire the second terminal
transition (the single state cell can only take one terminal value per
tick). -/
theorem c4_oxygen_exhaustion_priority (w : World) (k : Keys) (dt : ℚ) (s : Session)
    (hst : s.gameState = .playing) (hox : (tick w k dt s).oxygen = 0) :
    (tick w k dt s).gameState = .gameover ∧ (tick w k dt s).gameState ≠ .win := by
  have hg : (tick w k dt s).gameState = .gameover := by
    unfold tick at hox ⊢
    dsimp only at hox ⊢
    rw [hst] at hox ⊢
    simp only [decaySplash_oxygen, decaySplash_gameState] at hox ⊢
    rw [tickPlaying_oxygen] at hox
    unfold tickPlaying
    dsimp only
    rw [if_pos (le_of_eq hox)]
  refine ⟨hg, ?_⟩
  rw [hg]
  simp

/-- C4 witness: from `sHit` (oxygen 0.01, player inside the treasure box),
a nominal 16.67 ms tick drains the oxygen to exactly 0, the freshly
integrated position still satisfies the treasure predicate, and the
session ends in `gameover`, not `win`. -/
theorem c4_witness :
    (tick wC ⟨false, false⟩ (1667 / 100) sHit).oxygen = 0 ∧
    insideTreasure wC.treasure (tick wC ⟨false, false⟩ (1667 / 100) sHit).player.x
      (tick wC ⟨false, false⟩ (1667 / 100) sHit).player.y = true ∧
    (tick wC ⟨false, false⟩ (1667 / 100) sHit).gameState = .gameover ∧
    (tick wC ⟨false, false⟩ (1667 / 100) sHit).gameState ≠ .win := by
  obtain ⟨h1, h2⟩ :=
    c4_oxygen_exhaustion_priority wC ⟨false, false⟩ (1667 / 100) sHit (by decide) (by decide)
  exact ⟨by decide, by decide, h1, h2⟩

/-- C6: over every reachable session state the oxygen level lies in
[0, 100] — the playing-tick drain clamps at 0, the correct-answer bonus
clamps at 100 — and a tick in any non-`playing` state leaves the oxygen
unchanged. -/
theorem c6_oxygen_bounds (w : World) (s : Session) :
    (Reachable w s → 0 ≤ s.oxygen ∧ s.oxygen ≤ 100) ∧
    (∀ k dt, s.gameState ≠ .playing → (tick w k dt s).oxygen = s.oxygen) := by
  constructor
  · intro h
    induction h with
    | init => norm_num [initSession]
    | tickStep k dt s h ih =>
      unfold tick
      dsimp only
      cases hgs : s.gameState <;> simp only [decaySplash_oxygen]
      case intro =>
        rw [tickIntro_oxygen]
        exact ih
      case playing =>
        rw [tickPlaying_oxygen]
        exact ⟨clamp_lower _ _ _, clamp_upper _ (by norm_num)⟩
      all_goals exact ih
    | actStep a s h ih =>
      cases a with
      | start =>
        unfold applyAction
        dsimp only
        split
        · norm_num [resetWith]
        · exact ih
      | togglePause => exact ih
      | restart => norm_num [applyAction, resetWith]
      | enterPocket =>
        rw [show (applyAction w .enterPocket s) = attemptEnterPocket w s from rfl,
          attemptEnterPocket_oxygen]
        exact ih
      | select i =>
        unfold applyAction
        dsimp only
        split
        · exact ih
        · exact ih
      | submit =>
        unfold applyAction submitAnswer
        dsimp only
        split
        · cases s.currentQ with
          | none => exact ih
          | some q =>
            dsimp only
            cases s.selectedOption with
            | none => exact ih
            | some i =>
              dsimp only
              split
              · exact ⟨clamp_lower _ _ _, clamp_upper _ (by norm_num)⟩
              · exact ih
        · exact ih
      | cancel =>
        unfold applyAction
        dsimp only
        split
        · exact ih
        · exact ih
      | mainMenu =>
        unfold applyAction
        dsimp only
        split
        · exact ih
        · exact ih
      | loadCSV t =>
        unfold applyAction
        dsimp only
        split
        · exact ih
        · exact ih
      | loadJSON rs =>
        unfold applyAction
        dsimp only
        split
        · exact ih
        · exact ih
  · intro k dt hne
    unfold tick
    dsimp only
    cases hgs : s.gameState <;> simp only [decaySplash_oxygen]
    case intro => exact tickIntro_oxygen k s
    case playing => exact absurd hgs hne

/-- C6 witness: the bounds applied at the initial session, whose oxygen a
menu tick also leaves untouched. -/
theorem c6_witness :
    (0 ≤ initSession.oxygen ∧ initSession.oxygen ≤ 100) ∧
    (tick wC ⟨false, false⟩ 33 initSession).oxygen = initSession.oxygen :=
  ⟨(c6_oxygen_bounds wC initSession).1 Reachable.init,
   (c6_oxygen_bounds wC initSession).2 ⟨false, false⟩ 33 (by decide)⟩

/-- C8: the score is a running maximum of the floored depth — every tick
leaves it no smaller, a `playing` tick recomputes it as the maximum of the
old score and the floored freshly integrated depth, and every action other
than the start/restart session resets leaves it no smaller. -/
theorem c8_score_running_max (w : World) (k : Keys) (dt : ℚ) (s : Session) (a : Action) :
    s.score ≤ (tick w k dt s).score ∧
    (s.gameState = .playing →
      (tick w k dt s).score = max s.score ⌊(tick w k dt s).player.y⌋) ∧
    (a ≠ .start → a ≠ .restart → s.score ≤ (applyAction w a s).score) := by
  refine ⟨?_, ?_, ?_⟩
  · unfold tick
    dsimp only
    cases hgs : s.gameState <;> simp only [decaySplash_score]
    case intro =>
      rw [tickIntro_score]
    case playing =>
      rw [tickPlaying_score]
      exact le_max_left _ _
    all_goals exact le_refl _
  · intro hst
    unfold tick
    dsimp only
    rw [hst]
    simp only [decaySplash_score, decaySplash_player]
    exact tickPlaying_score w k (min 33 dt) s
  · intro h1 h2
    cases a with
    | start => exact absurd rfl h1
    | restart => exact absurd rfl h2
    | togglePause => exact le_refl _
    | enterPocket =>
      rw [show (applyAction w .enterPocket s) = attemptEnterPocket w s from rfl,
        attemptEnterPocket_score]
    | select i =>
      unfold applyAction
      dsimp only
      split
      · exact le_refl _
      · exact le_refl _
    | submit =>
      unfold applyAction
      dsimp only
      split
      · rw [submitAnswer_score]
      · exact le_refl _
    | cancel =>
      unfold applyAction
      dsimp only
      split
      · exact le_refl _
      · exact le_refl _
    | mainMenu =>
      unfold applyAction
      dsimp only
      split
      · exact le_refl _
      · exact le_refl _
    | loadCSV t =>
      unfold applyAction
      dsimp only
      split
      · exact le_refl _
      · exact le_refl _
    | loadJSON rs =>
      unfold applyAction
      dsimp only
      split
      · exact le_refl _
      · exact le_refl _

/-- C8 witness: the running-maximum law applied on the descent state at the
surface (score 0, depth 111.08) and to a pause action. -/
theorem c8_witness :
    (descState 0).score ≤ (tick wC ⟨false, false⟩ 0 (descState 0)).score ∧
    (tick wC ⟨false, false⟩ 0 (descState 0)).score =
      max (descState 0).score ⌊(tick wC ⟨false, false⟩ 0 (descState 0)).player.y⌋ ∧
    (descState 0).score ≤ (applyAction wC .togglePause (descState 0)).score := by
  obtain ⟨h1, h2, h3⟩ :=
    c8_score_running_max wC ⟨false, false⟩ 0 (descState 0) .togglePause
  exact ⟨h1, h2 (by decide), h3 (by decide) (by decide)⟩

/-- C10: the world geometry is computed once per component lifetime — no
sequence of frames or input actions ever changes the pockets or the
treasure — and the restart action resets every mutable session cell
(state, oxygen, score, cleared set, active pocket, question, selection,
splash, player) while reusing the identical world layout and the loaded
question list. -/
theorem c10_restart_keeps_world :
    (∀ (evs : List GEvent) (g : Game), (gameRun evs g).world = g.world) ∧
    (∀ g : Game,
      (gameStep (.input .restart) g).world.pockets = g.world.pockets ∧
      (gameStep (.input .restart) g).world.treasure = g.world.treasure ∧
      (gameStep (.input .restart) g).session.gameState = .intro ∧
      (gameStep (.input .restart) g).session.oxygen = 100 ∧
      (gameStep (.input .restart) g).session.score = 0 ∧
      (gameStep (.input .restart) g).session.answeredPocketIds = [] ∧
      (gameStep (.input .restart) g).session.activePocketId = none ∧
      (gameStep (.input .restart) g).session.currentQ = none ∧
      (gameStep (.input .restart) g).session.selectedOption = none ∧
      (gameStep (.input .restart) g).session.splash = none ∧
      (gameStep (.input .restart) g).session.player = restartPlayer ∧
      (gameStep (.input .restart) g).session.questions = g.session.questions) := by
  constructor
  · intro evs
    induction evs with
    | nil => intro g; rfl
    | cons e rest ih =>
      intro g
      show (gameRun rest (gameStep e g)).world = g.world
      rw [ih (gameStep e g)]
      cases e <;> rfl
  · intro g
    exact ⟨rfl, rfl, rfl, rfl, rfl, rfl, rfl, rfl, rfl, rfl, rfl, rfl⟩

/-- C5 (counterexample): the delimited-text form accepts a row with a
single option — `"Q?,A,0"` parses to one accepted question whose option
list has length 1, refuting the claim that every parsed question carries
at least 2 options. -/
theorem c5_counterexample :
    (parseCSVLoose "Q?,A,0").map (fun q => q.options.length) = [1] ∧
    ∃ q ∈ parseCSVLoose "Q?,A,0", q.options.length < 2 := by
  constructor
  · decide
  · decide

/-- A row accepted by the CSV row parser always carries at least one
option: the option filter drops empties and an empty list is rejected. -/
theorem parseLine_options_pos {l : List Char} {q : Question}
    (h : parseLine l = some q) : 1 ≤ q.options.length := by
  unfold parseLine at h
  split at h
  · dsimp only at h
    split at h
    · exact absurd h (by simp)
    · split at h
      · exact absurd h (by simp)
      · split at h
        · exact absurd h (by simp)
        · next hcond =>
          injection h with h2
          subst h2
          simp only [Bool.or_eq_true, not_or, Bool.not_eq_true] at hcond
          obtain ⟨-, hopts⟩ := hcond
          rw [List.isEmpty_eq_false_iff_exists_mem] at hopts
          obtain ⟨o, ho⟩ := hopts
          have := List.length_pos.mpr (List.ne_nil_of_mem ho)
          simpa using this
  · exact absurd h (by simp)

/-- C5 (amended): every Question produced from the structured (JSON) form
has at least 2 options — the JSON filter demands it — but the
delimited-text (CSV) form only guarantees at least 1 non-empty option, so
single-option questions can enter through the CSV path (see the
counterexample). -/
theorem c5_amended_option_counts (rs : List RawRecord) (t : String) :
    (∀ q ∈ cleanJSONRecords rs, 2 ≤ q.options.length) ∧
    (∀ q ∈ parseCSVLoose t, 1 ≤ q.options.length) := by
  constructor
  · intro q hq
    unfold cleanJSONRecords at hq
    rw [List.mem_filterMap] at hq
    obtain ⟨r, -, hr⟩ := hq
    split at hr
    · split at hr
      · next hcnd =>
        injection hr with hr2
        subst hr2
        simp only [Bool.and_eq_true, decide_eq_true_eq] at hcnd
        exact hcnd.2
      · exact absurd hr (by simp)
    · exact absurd hr (by simp)
  · intro q hq
    unfold parseCSVLoose at hq
    rw [List.mem_filterMap] at hq
    obtain ⟨l, -, hl⟩ := hq
    exact parseLine_options_pos hl

/-- C5 amended witness: the guarantees instantiated on a one-record JSON
batch and the single-option CSV row. -/
theorem c5_amended_witness :
    2 ≤ (Question.mk "Q?" ["A", "B"] 0).options.length ∧
    1 ≤ (Question.mk "Q?" ["A"] 0).options.length := by
  obtain ⟨hj, hc⟩ :=
    c5_amended_option_counts [⟨some "Q?", some ["A", "B"], some 0⟩] "Q?,A,0"
  exact ⟨hj _ (by decide), hc _ (by decide)⟩

/-- The scan returns `none` exactly when it started empty-handed and every
pocket in the list is cleared. -/
theorem nearestScan_eq_none {a : List ℕ} {pl : Player} :
    ∀ {ps : List Pocket} {acc : Option (Pocket × ℚ)},
      nearestScan a pl ps acc = none ↔ acc = none ∧ ∀ q ∈ ps, a.contains q.id = true := by
  intro ps
  induction ps with
  | nil =>
    intro acc
    simp [nearestScan]
  | cons p rest ih =>
    intro acc
    unfold nearestScan
    by_cases hc : a.contains p.id
    · rw [if_pos hc, ih]
      constructor
      · rintro ⟨h1, h2⟩
        refine ⟨h1, fun q hq => ?_⟩
        rcases List.mem_cons.mp hq with rfl | hq2
        · exact hc
        · exact h2 q hq2
      · rintro ⟨h1, h2⟩
        exact ⟨h1, fun q hq => h2 q (List.mem_cons_of_mem _ hq)⟩
    · rw [if_neg hc]
      rw [Bool.not_eq_true] at hc
      cases acc with
      | none =>
        dsimp only
        rw [ih]
        constructor
        · rintro ⟨h1, -⟩
          cases h1
        · rintro ⟨-, h2⟩
          have h3 := h2 p (List.mem_cons_self p rest)
          rw [hc] at h3
          cases h3
      | some pr =>
        obtain ⟨pb, db⟩ := pr
        dsimp only
        constructor
        · intro h
          split at h
          · obtain ⟨h1, -⟩ := ih.mp h
            cases h1
          · obtain ⟨h1, -⟩ := ih.mp h
            cases h1
        · rintro ⟨h1, -⟩
          cases h1

/-- What a successful scan returns: the accumulator itself, or an uncleared
pocket of the list paired with its squared distance; in either case the
returned distance is minimal both against every uncleared pocket of the
list and against the accumulator. -/
theorem nearestScan_some_spec {a : List ℕ} {pl : Player} :
    ∀ {ps : List Pocket} {acc : Option (Pocket × ℚ)} {p : Pocket} {d : ℚ},
      nearestScan a pl ps acc = some (p, d) →
      (acc = some (p, d) ∨ (p ∈ ps ∧ a.contains p.id = false ∧ d = distSq pl p)) ∧
      (∀ q ∈ ps, a.contains q.id = false → d ≤ distSq pl q) ∧
      (∀ q e, acc = some (q, e) → d ≤ e) := by
  intro ps
  induction ps with
  | nil =>
    intro acc p d h
    unfold nearestScan at h
    refine ⟨Or.inl h, by simp, ?_⟩
    intro q e hacc
    rw [h] at hacc
    injection hacc with hacc2
    injection hacc2 with h1 h2
    rw [h2]
  | cons pk rest ih =>
    intro acc p d h
    unfold nearestScan at h
    by_cases hc : a.contains pk.id
    · rw [if_pos hc] at h
      obtain ⟨h1, h2, h3⟩ := ih h
      refine ⟨?_, ?_, h3⟩
      · rcases h1 with h1 | ⟨hm, hcf, hd⟩
        · exact Or.inl h1
        · exact Or.inr ⟨List.mem_cons_of_mem _ hm, hcf, hd⟩
      · intro q hq hqc
        rcases List.mem_cons.mp hq with rfl | hq2
        · rw [hc] at hqc
          cases hqc
        · exact h2 q hq2 hqc
    · rw [if_neg hc] at h
      rw [Bool.not_eq_true] at hc
      cases acc with
      | none =>
        dsimp only at h
        obtain ⟨h1, h2, h3⟩ := ih h
        have hmin : d ≤ distSq pl pk := h3 pk (distSq pl pk) rfl
        refine ⟨?_, ?_, by simp⟩
        · rcases h1 with h1 | ⟨hm, hcf, hd⟩
          · injection h1 with h1a
            injection h1a with ha hb
            exact Or.inr ⟨ha ▸ List.mem_cons_self pk rest, ha ▸ hc, hb.symm ▸ (ha ▸ rfl)⟩
          · exact Or.inr ⟨List.mem_cons_of_mem _ hm, hcf, hd⟩
        · intro q hq hqc
          rcases List.mem_cons.mp hq with rfl | hq2
          · exact hmin
          · exact h2 q hq2 hqc
      | some pr =>
        obtain ⟨pb, db⟩ := pr
        dsimp only at h
        by_cases hlt : distSq pl pk < db
        · rw [if_pos hlt] at h
          obtain ⟨h1, h2, h3⟩ := ih h
          have hmin : d ≤ distSq pl pk := h3 pk (distSq pl pk) rfl
          refine ⟨?_, ?_, ?_⟩
          · rcases h1 with h1 | ⟨hm, hcf, hd⟩
            · injection h1 with h1a
              injection h1a with ha hb
              exact Or.inr ⟨ha ▸ List.mem_cons_self pk rest, ha ▸ hc, hb.symm ▸ (ha ▸ rfl)⟩
            · exact Or.inr ⟨List.mem_cons_of_mem _ hm, hcf, hd⟩
          · intro q hq hqc
            rcases List.mem_cons.mp hq with rfl | hq2
            · exact hmin
            · exact h2 q hq2 hqc
          · intro q e hacc
            injection hacc with hacc2
            injection hacc2 with ha hb
            rw [← hb]
            exact le_of_lt (lt_of_le_of_lt hmin hlt)
        · rw [if_neg hlt] at h
          obtain ⟨h1, h2, h3⟩ := ih h
          have hdb : d ≤ db := h3 pb db rfl
          refine ⟨?_, ?_, ?_⟩
          · rcases h1 with h1 | ⟨hm, hcf, hd⟩
            · exact Or.inl h1
            · exact Or.inr ⟨List.mem_cons_of_mem _ hm, hcf, hd⟩
          · intro q hq hqc
            rcases List.mem_cons.mp hq with rfl | hq2
            · exact le_trans hdb (le_of_not_lt hlt)
            · exact h2 q hq2 hqc
          · intro q e hacc
            injection hacc with hacc2
            injection hacc2 with ha hb
            rw [← hb]
            exact hdb

/-- C7: the proximity detector considers only uncleared pockets, its sole
candidate is the (first) pocket of minimal straight-line distance, that
candidate is reported enterable exactly when its distance is within the
pocket radius plus the fixed player-radius (18) and slack (8) constants,
and if every pocket is cleared — in particular any cleared pocket itself —
nothing is returned, so cleared pockets cannot be re-entered.  Distances
enter only through comparisons, stated here on squares (equivalent for the
nonnegative hypotenuse). -/
theorem c7_nearest_enterable_spec (a : List ℕ) (pl : Player) (ps : List Pocket) :
    ((∀ p ∈ ps, a.contains p.id = true) → nearestEnterablePocketId a pl ps = none) ∧
    (∀ i, nearestEnterablePocketId a pl ps = some i →
      ∃ p ∈ ps, p.id = i ∧ a.contains p.id = false ∧
        0 ≤ p.radius + 18 + 8 ∧ distSq pl p ≤ (p.radius + 18 + 8) ^ 2 ∧
        ∀ q ∈ ps, a.contains q.id = false → distSq pl p ≤ distSq pl q) ∧
    (∀ p d, nearestScan a pl ps none = some (p, d) →
      (nearestEnterablePocketId a pl ps = some p.id ↔
        0 ≤ p.radius + 18 + 8 ∧ d ≤ (p.radius + 18 + 8) ^ 2)) := by
  refine ⟨?_, ?_, ?_⟩
  · intro hall
    unfold nearestEnterablePocketId
    rw [nearestScan_eq_none.mpr ⟨rfl, hall⟩]
  · intro i hi
    unfold nearestEnterablePocketId at hi
    cases hscan : nearestScan a pl ps none with
    | none =>
      rw [hscan] at hi
      cases hi
    | some pr =>
      obtain ⟨p, d⟩ := pr
      rw [hscan] at hi
      dsimp only at hi
      split at hi
      · next hcnd =>
        injection hi with hi2
        obtain ⟨h1, h2, -⟩ := nearestScan_some_spec hscan
        rcases h1 with h1 | ⟨hm, hcf, hd⟩
        · cases h1
        · subst hd
          exact ⟨p, hm, hi2, hcf, hcnd.1, hcnd.2, h2⟩
      · cases hi
  · intro p d hscan
    unfold nearestEnterablePocketId
    rw [hscan]
    dsimp only
    constructor
    · intro h
      split at h
      · next hcnd => exact hcnd
      · cases h
    · intro hcnd
      rw [if_pos hcnd]

/-- C7 witness: in the concrete world `wC` with no cleared pockets and the
player hovering at depth 336.08, the detector returns the first pocket,
and the specification instantiates on it. -/
theorem c7_witness :
    nearestEnterablePocketId [] (descState 250).player wC.pockets = some 0 ∧
    ∃ p ∈ wC.pockets, p.id = 0 ∧ ([] : List ℕ).contains p.id = false ∧
      0 ≤ p.radius + 18 + 8 ∧
      distSq (descState 250).player p ≤ (p.radius + 18 + 8) ^ 2 ∧
      ∀ q ∈ wC.pockets, ([] : List ℕ).contains q.id = false →
        distSq (descState 250).player p ≤ distSq (descState 250).player q := by
  refine ⟨by decide, ?_⟩
  exact (c7_nearest_enterable_spec [] (descState 250).player wC.pockets).2.1 0 (by decide)

/-- Bounds of the injected-randomness `randInt`: for any sample in
`[0, 1)` the result lies in `[lo, hi]`. -/
theorem jsRandInt_bounds {r : ℚ} (h0 : 0 ≤ r) (h1 : r < 1) {lo hi : ℤ} (hle : lo ≤ hi) :
    lo ≤ jsRandInt r lo hi ∧ jsRandInt r lo hi ≤ hi := by
  unfold jsRandInt
  have hcast : (lo : ℚ) ≤ (hi : ℚ) := by exact_mod_cast hle
  have hk0 : (0 : ℚ) ≤ (hi : ℚ) - lo + 1 := by linarith
  constructor
  · have h2 : (0 : ℤ) ≤ ⌊r * ((hi : ℚ) - lo + 1)⌋ :=
      Int.floor_nonneg.mpr (mul_nonneg h0 hk0)
    omega
  · have h2 : ⌊r * ((hi : ℚ) - lo + 1)⌋ < hi - lo + 1 := by
      rw [Int.floor_lt]
      push_cast
      have hkpos : (0 : ℚ) < (hi : ℚ) - lo + 1 := by linarith
      calc r * ((hi : ℚ) - lo + 1) < 1 * ((hi : ℚ) - lo + 1) :=
            mul_lt_mul_of_pos_right h1 hkpos
        _ = (hi : ℚ) - lo + 1 := one_mul _
    omega

/-- Structure of the pocket-generation loop, for any count, ordinal and
starting depth: it emits exactly `n` pockets, horizontal positions within
the margins, radius 38, head at the starting depth, and consecutive depths
separated by a step in [500, 720]. -/
theorem genPocketsAux_spec (rs : ℕ → ℚ) (hr : ∀ n, 0 ≤ rs n ∧ rs n < 1) :
    ∀ (n i : ℕ) (y : ℚ),
      (genPocketsAux rs n i y).length = n ∧
      (∀ p ∈ genPocketsAux rs n i y, 120 ≤ p.x ∧ p.x ≤ 840 ∧ p.radius = 38) ∧
      ((genPocketsAux rs n i y).head?.map Pocket.y =
        if n = 0 then none else some y) ∧
      (genPocketsAux rs n i y).Chain' (fun p q => p.y + 500 ≤ q.y ∧ q.y ≤ p.y + 720) := by
  intro n
  induction n with
  | zero =>
    intro i y
    simp [genPocketsAux]
  | succ m ih =>
    intro i y
    obtain ⟨hlen, hx, hhead, hchain⟩ := ih (i + 1) (y + (jsRandInt (rs (2 * i + 1)) 500 720 : ℚ))
    refine ⟨?_, ?_, ?_, ?_⟩
    · rw [genPocketsAux]
      simp [hlen]
    · intro p hp
      rw [genPocketsAux, List.mem_cons] at hp
      rcases hp with rfl | hp2
      · obtain ⟨hb1, hb2⟩ :=
          jsRandInt_bounds (hr (2 * i)).1 (hr (2 * i)).2 (by norm_num : (120 : ℤ) ≤ 840)
        refine ⟨?_, ?_, rfl⟩
        · show (120 : ℚ) ≤ (jsRandInt (rs (2 * i)) 120 840 : ℚ)
          exact_mod_cast hb1
        · show (jsRandInt (rs (2 * i)) 120 840 : ℚ) ≤ 840
          exact_mod_cast hb2
      · exact hx p hp2
    · rw [genPocketsAux]
      simp
    · rw [genPocketsAux]
      rw [List.chain'_cons']
      refine ⟨?_, hchain⟩
      intro q hq
      obtain ⟨hs1, hs2⟩ :=
        jsRandInt_bounds (hr (2 * i + 1)).1 (hr (2 * i + 1)).2 (by norm_num : (500 : ℤ) ≤ 720)
      have hs1q : (500 : ℚ) ≤ (jsRandInt (rs (2 * i + 1)) 500 720 : ℚ) := by exact_mod_cast hs1
      have hs2q : (jsRandInt (rs (2 * i + 1)) 500 720 : ℚ) ≤ 720 := by exact_mod_cast hs2
      rw [Option.mem_def] at hq
      have hqy : q.y = y + (jsRandInt (rs (2 * i + 1)) 500 720 : ℚ) := by
        cases m with
        | zero =>
          rw [genPocketsAux] at hq
          cases hq
        | succ m2 =>
          rw [genPocketsAux, List.head?_cons] at hq
          injection hq with hq2
          rw [← hq2]
      refine ⟨?_, ?_⟩ <;> dsimp only <;> rw [hqy] <;> linarith

/-- C9: for every randomness stream with samples in `[0, 1)`, generation
succeeds totally and yields exactly 8 checkpoints, the first at the fixed
depth 400, consecutive depths separated by a step in the bounded positive
range [500, 720] (hence strictly increasing), horizontal positions within
the 120-pixel viewport margins, plus one treasure at depth
`WORLD_H - 140` (near the world's maximum depth 5200) within the 160-pixel
horizontal margins. -/
theorem c9_world_generation (rs : ℕ → ℚ) (hr : ∀ n, 0 ≤ rs n ∧ rs n < 1)
    (rt : ℚ) (ht0 : 0 ≤ rt) (ht1 : rt < 1) :
    (genPockets rs).length = 8 ∧
    ((genPockets rs).head?.map Pocket.y = some 400) ∧
    (genPockets rs).Chain' (fun p q => p.y + 500 ≤ q.y ∧ q.y ≤ p.y + 720) ∧
    (genPockets rs).Chain' (fun p q => p.y < q.y) ∧
    (∀ p ∈ genPockets rs, 120 ≤ p.x ∧ p.x ≤ VIEW_W - 120) ∧
    (genTreasure rt).y = WORLD_H - 140 ∧
    160 ≤ (genTreasure rt).x ∧ (genTreasure rt).x ≤ VIEW_W - 160 := by
  obtain ⟨hlen, hx, hhead, hchain⟩ := genPocketsAux_spec rs hr 8 0 400
  obtain ⟨ht2, ht3⟩ := jsRandInt_bounds ht0 ht1 (by norm_num : (160 : ℤ) ≤ 800)
  refine ⟨hlen, by simpa using hhead, hchain, ?_, ?_, rfl, ?_, ?_⟩
  · exact hchain.imp fun a b h => by linarith [h.1]
  · intro p hp
    obtain ⟨h1, h2, -⟩ := hx p hp
    exact ⟨h1, by unfold VIEW_W; linarith⟩
  · show (160 : ℚ) ≤ (jsRandInt rt 160 800 : ℚ)
    exact_mod_cast ht2
  · show (jsRandInt rt 160 800 : ℚ) ≤ VIEW_W - 160
    unfold VIEW_W
    have : (jsRandInt rt 160 800 : ℚ) ≤ 800 := by exact_mod_cast ht3
    linarith

/-- C9 witness: generation from the all-zeros randomness stream. -/
theorem c9_witness :
    (genPockets (fun _ => 0)).length = 8 ∧
    ((genPockets (fun _ => 0)).head?.map Pocket.y = some 400) ∧
    (genPockets (fun _ => 0)).Chain' (fun p q => p.y < q.y) ∧
    (genTreasure 0).y = WORLD_H - 140 := by
  obtain ⟨h1, h2, -, h4, -, h6, -⟩ :=
    c9_world_generation (fun _ => 0) (fun _ => ⟨le_refl 0, by norm_num⟩) 0
      (le_refl 0) (by norm_num)
  exact ⟨h1, h2, h4, h6⟩

end SeaTreasure
